import Mathlib

/-
Verification development for the reflective configuration library
(src/lib.rs: the ConfigType protocol, the basic_impl leaves, the String
and (X, Y) leaf impls and the composite structs generated by the config
macro) and its observer module (src/observer.rs: Observe).

Machine values and the concrete RON codec are external collaborators:
every leaf carries its codec as an explicit parse function from payload
strings to optional typed values, exactly where the source calls
ron::de::from_str.
-/

set_option autoImplicit false

universe u

/-- Error taxonomy of the path-resolution engine. The source reports these
as failure strings (Path too short / Path is too short, Path not found /
Path is not found, Path too long, and codec errors propagated by the
question-mark operator); they are modelled as one enumeration. -/
inductive Err where
  | pathTooShort
  | pathTooLong
  | pathNotFound
  | valueParseError
deriving DecidableEq, Repr

mutual
/-- A configuration tree node. `basicLeaf` embeds the leaves produced by
the basic_impl macro (i8 .. i64, u8 .. u64, f32, f64, bool); `strLeaf`
embeds `impl ConfigType for String`; `tupleLeaf` embeds
`impl ConfigType for (X, Y)`; `node` embeds a composite struct generated
by the config macro, carrying its fields in declaration order. Each leaf
stores its external Leaf Codec as a parse function together with its
current value. -/
inductive ConfigTree (α : Type u) where
  | basicLeaf (parse : String → Option α) (value : α)
  | strLeaf (parse : String → Option String) (value : String)
  | tupleLeaf (parse : String → Option α) (value : α)
  | node (fields : ConfigFields α)

/-- The ordered (field name, child) pairs of a composite node, in
declaration order. -/
inductive ConfigFields (α : Type u) where
  | nil
  | cons (name : String) (child : ConfigTree α) (rest : ConfigFields α)
end

variable {α : Type u}

mutual
/-- Embedding of `ConfigType::check_set`.

basic_impl: an empty path parses the payload with the codec and succeeds
iff the codec does; a non-empty path is Path too long.
String: an empty path succeeds unconditionally (the codec is not
consulted); a non-empty path is Path too long.
(X, Y): a non-empty path is Path too long; otherwise the payload is
parsed like basic_impl.
Composite (config macro): an empty path is Path is too short; otherwise
the first segment is matched against the declared field names in order
and the first match recurses with the tail, a missing match being
Path is not found. -/
def checkSet : ConfigTree α → List String → String → Except Err Unit
  | .basicLeaf parse _, path, value =>
    match path with
    | [] =>
      match parse value with
      | some _ => .ok ()
      | none => .error .valueParseError
    | _ :: _ => .error .pathTooLong
  | .strLeaf _ _, path, _ =>
    match path with
    | [] => .ok ()
    | _ :: _ => .error .pathTooLong
  | .tupleLeaf parse _, path, value =>
    match path with
    | _ :: _ => .error .pathTooLong
    | [] =>
      match parse value with
      | some _ => .ok ()
      | none => .error .valueParseError
  | .node fields, path, value =>
    match path with
    | [] => .error .pathTooShort
    | seg :: rest => checkSetFields fields seg rest value

/-- The match generated by the config macro for `check_set`: literal arms
for the declared field names in declaration order, so the first name
match is taken, then a wildcard arm for Path is not found. -/
def checkSetFields : ConfigFields α → String → List String → String → Except Err Unit
  | .nil, _, _, _ => .error .pathNotFound
  | .cons name child restFields, seg, rest, value =>
    if name = seg then checkSet child rest value
    else checkSetFields restFields seg rest value
end

mutual
/-- Embedding of `ConfigType::set`. The Rust receiver is `&mut self` and
the return type is `Result<(), Error>`; this is modelled state-passing
style as a pair of the result and the tree after the call, so that the
tree on the error paths is visibly the untouched receiver.

basic_impl / String / (X, Y): a non-empty path is Path too long; an empty
path parses the payload with the codec and on success assigns the parsed
value (the question-mark operator returns before the assignment on a
codec failure).
Composite (config macro): an empty path is Path too short; otherwise the
first segment is matched against the declared field names in order and
set recurses into the first matching field with the tail, a missing
match being Path not found. -/
def setM : ConfigTree α → List String → String → Except Err Unit × ConfigTree α
  | .basicLeaf parse v, path, value =>
    match path with
    | _ :: _ => (.error .pathTooLong, .basicLeaf parse v)
    | [] =>
      match parse value with
      | some w => (.ok (), .basicLeaf parse w)
      | none => (.error .valueParseError, .basicLeaf parse v)
  | .strLeaf parse v, path, value =>
    match path with
    | _ :: _ => (.error .pathTooLong, .strLeaf parse v)
    | [] =>
      match parse value with
      | some w => (.ok (), .strLeaf parse w)
      | none => (.error .valueParseError, .strLeaf parse v)
  | .tupleLeaf parse v, path, value =>
    match path with
    | _ :: _ => (.error .pathTooLong, .tupleLeaf parse v)
    | [] =>
      match parse value with
      | some w => (.ok (), .tupleLeaf parse w)
      | none => (.error .valueParseError, .tupleLeaf parse v)
  | .node fields, path, value =>
    match path with
    | [] => (.error .pathTooShort, .node fields)
    | seg :: rest =>
      let r := setMFields fields seg rest value
      (r.1, .node r.2)

/-- The match generated by the config macro for `set`: `self.field.set`
on the first field whose name equals the segment, the remaining fields
untouched. -/
def setMFields : ConfigFields α → String → List String → String → Except Err Unit × ConfigFields α
  | .nil, _, _, _ => (.error .pathNotFound, .nil)
  | .cons name child restFields, seg, rest, value =>
    if name = seg then
      let r := setM child rest value
      (r.1, .cons name r.2 restFields)
    else
      let r := setMFields restFields seg rest value
      (r.1, .cons name child r.2)
end

/-- Field names of a composite node, in declaration order. -/
def fieldNames : ConfigFields α → List String
  | .nil => []
  | .cons name _ rest => name :: fieldNames rest

/-- Embedding of `ConfigType::get_descendants`: the config macro emits
the declared field names for a composite; every leaf impl inherits the
trait default, the empty slice. -/
def getDescendants : ConfigTree α → List String
  | .node fields => fieldNames fields
  | _ => []

/-- First declared child whose name equals the segment (field names are
unique within one node, so the first match is the unique match). -/
def findField : ConfigFields α → String → Option (ConfigTree α)
  | .nil, _ => none
  | .cons name child rest, seg =>
    if name = seg then some child else findField rest seg

/-- Replace the first field whose name equals the segment. -/
def replaceFirst : ConfigFields α → String → ConfigTree α → ConfigFields α
  | .nil, _, _ => .nil
  | .cons name child rest, seg, c =>
    if name = seg then .cons name c rest
    else .cons name child (replaceFirst rest seg c)

/-- Apply a function to every immediate child, keeping names and order. -/
def mapChildren (g : ConfigTree α → ConfigTree α) : ConfigFields α → ConfigFields α
  | .nil => .nil
  | .cons name child rest => .cons name (g child) (mapChildren g rest)

/-- Modelled from the spec: the Leaf Codec is an external collaborator
(parse(string) -> Result) outside this repository; the String leaf's
`set` calls it as ron::de::from_str. This instance models the RON
string-literal codec: it accepts exactly a double-quoted literal and
yields the inner text (escape sequences are not needed for the inputs
used here and are not modelled). -/
def ronStringParse (s : String) : Option String :=
  match s.data with
  | [] => none
  | c :: cs =>
    if c = '"' ∧ cs ≠ [] ∧ cs.getLast? = some '"' then
      some (String.mk cs.dropLast)
    else none

/-- Embedding of the source's `type Subscriber<C, T> = fn(&mut C, T)`: a
subscriber is a named function taking the context to modify and the new
value. A Rust `fn` pointer has both behaviour (modelled by `run`, in
state-passing style over the context) and a code address used for the
identity comparison `function as *const u8 == *sub as *const u8`
(modelled by the `id` tag: two handles denote the same named function
exactly when their tags are equal). -/
structure Subscriber (C : Type) (T : Type) where
  id : Nat
  run : C → T → C

/-- Embedding of `Observe<T, C>`: a current value and the ordered
subscriber registry. -/
structure Observe (T : Type) (C : Type) where
  value : T
  subscribers : List (Subscriber C T)

/-- Embedding of `Observe::new`: the given value, no subscribers. -/
def Observe.new {T C : Type} (value : T) : Observe T C :=
  ⟨value, []⟩

/-- Embedding of `Observe::get`. -/
def Observe.get {T C : Type} (o : Observe T C) : T :=
  o.value

/-- Embedding of `Observe::set`: assign the new value, then call each
subscriber in registry order on the modifier and the new value. Receiver
`&mut self` and `modifier: &mut C` are modelled state-passing style: the
result is the cell after the call paired with the context after the
call. -/
def Observe.set {T C : Type} (o : Observe T C) (value : T) (modifier : C) :
    Observe T C × C :=
  (⟨value, o.subscribers⟩,
   o.subscribers.foldl (fun c sub => sub.run c value) modifier)

/-- Embedding of `Observe::compare_and_set`: call `set` only when the new
value differs from the stored value, otherwise leave cell and context
untouched. -/
def Observe.compare_and_set {T C : Type} [DecidableEq T] (o : Observe T C)
    (value : T) (modifier : C) : Observe T C × C :=
  if o.value ≠ value then o.set value modifier else (o, modifier)

/-- Embedding of `Observe::dependency_set`. The Rust getter
`impl Fn(&mut C) -> &mut Self` is a place projection into the context; a
mutable place is modelled as a read function `g` and a write-back
function `p` (for an accessor `|x| &mut x.f` these are the field read
and the field update). The source assigns through the place, re-reads
the place to clone the subscriber list (the snapshot), then calls each
snapshotted subscriber on the whole context and the new value. -/
def Observe.dependency_set {T C : Type} (modifier : C)
    (g : C → Observe T C) (p : C → Observe T C → C) (value : T) : C :=
  let m1 := p modifier ⟨value, (g modifier).subscribers⟩
  let snapshot := (g m1).subscribers
  snapshot.foldl (fun c sub => sub.run c value) m1

/-- Embedding of `Observe::dependency_compare_and_set`: read the cell
through the place and proceed with `dependency_set` only when the new
value differs from its stored value. -/
def Observe.dependency_compare_and_set {T C : Type} [DecidableEq T]
    (modifier : C) (g : C → Observe T C) (p : C → Observe T C → C)
    (value : T) : C :=
  if (g modifier).value ≠ value then
    Observe.dependency_set modifier g p value
  else modifier

/-- The loop of `Observe::find_subscriber`, carrying the enumeration
index: the first subscriber whose code address equals the argument's
wins (the source writes `index = Some(idx); break`). -/
def findSubAux {C T : Type} (fid : Nat) : Nat → List (Subscriber C T) → Option Nat
  | _, [] => none
  | i, sub :: rest =>
    if fid = sub.id then some i else findSubAux fid (i + 1) rest

/-- Embedding of `Observe::find_subscriber`: index of the first entry
with the same function-pointer identity. -/
def Observe.find_subscriber {T C : Type} (o : Observe T C)
    (function : Subscriber C T) : Option Nat :=
  findSubAux function.id 0 o.subscribers

/-- Embedding of `Observe::subscribe`: append only when no entry has the
same function-pointer identity. -/
def Observe.subscribe {T C : Type} (o : Observe T C)
    (function : Subscriber C T) : Observe T C :=
  if (o.find_subscriber function).isNone then
    ⟨o.value, o.subscribers ++ [function]⟩
  else o

/-- Embedding of `Observe::unsubscribe`: `Vec::remove` at the index of
the first entry with the same function-pointer identity, if any. -/
def Observe.unsubscribe {T C : Type} (o : Observe T C)
    (function : Subscriber C T) : Observe T C :=
  match o.find_subscriber function with
  | some i => ⟨o.value, o.subscribers.eraseIdx i⟩
  | none => o

/-- Embedding of `Observe::count_subscribers`. -/
def Observe.count_subscribers {T C : Type} (o : Observe T C) : Nat :=
  o.subscribers.length

/-- Iterated `dependency_compare_and_set`: the same accessor and value
applied n times in sequence to the context. -/
def iterDcas {T C : Type} [DecidableEq T] (g : C → Observe T C)
    (p : C → Observe T C → C) (value : T) : Nat → C → C
  | 0, c => c
  | n + 1, c =>
    iterDcas g p value n (Observe.dependency_compare_and_set c g p value)

/-- Digit accumulator for `natParse`. -/
def natParseAux : List Char → Nat → Option Nat
  | [], acc => some acc
  | c :: cs, acc =>
    if '0' ≤ c ∧ c ≤ '9' then
      natParseAux cs (acc * 10 + (c.toNat - Char.toNat '0'))
    else none

/-- A concrete integer Leaf Codec used for concrete instances: the
payload as a non-empty string of decimal digits. -/
def natParse (s : String) : Option Nat :=
  match s.data with
  | [] => none
  | cs => natParseAux cs 0

/-- A one-field composite used for concrete instances: a struct with a
single basic leaf field named a. -/
def fields0 : ConfigFields Nat :=
  .cons "a" (.basicLeaf natParse 0) .nil

/-- A concrete subscriber handle adding the new value to the context. -/
def sAdd : Subscriber Nat Nat :=
  ⟨1, fun c x => c + x⟩

/-- A concrete subscriber handle leaving the context unchanged. -/
def sKeep : Subscriber Nat Nat :=
  ⟨2, fun c _ => c⟩

/-- Concrete context for the dependency protocol: the first component is
the scalar state of the observed cell, the second counts subscriber
invocations. -/
def cexSub : Subscriber (Nat × Nat) Nat :=
  ⟨0, fun c _ => (0, c.2 + 1)⟩

/-- Place read for the concrete dependency context: the cell holds the
first component and the one registered subscriber `cexSub`, which resets
the observed scalar and records its invocation in the counter (the spec
allows a subscriber to mutate the context, including the observed cell,
during a cascade). -/
def cexGet (c : Nat × Nat) : Observe Nat (Nat × Nat) :=
  ⟨c.1, [cexSub]⟩

/-- Place write-back for the concrete dependency context. -/
def cexPut (c : Nat × Nat) (o : Observe Nat (Nat × Nat)) : Nat × Nat :=
  (o.value, c.2)

/-- A well-behaved subscriber for the dependency protocol: it records
its invocation in the second component of the context and leaves the
observed scalar alone. -/
def wSub : Subscriber (Nat × Nat) Nat :=
  ⟨4, fun c _ => (c.1, c.2 + 1)⟩

/-- Place read for the well-behaved dependency context: the cell holds
the first component of the context and the one registered subscriber
`wSub`. -/
def wGet (c : Nat × Nat) : Observe Nat (Nat × Nat) :=
  ⟨c.1, [wSub]⟩

/-- Place write-back for the well-behaved dependency context. -/
def wPut (c : Nat × Nat) (o : Observe Nat (Nat × Nat)) : Nat × Nat :=
  (o.value, c.2)

theorem findField_none_checkSetFields :
    ∀ (f : ConfigFields α) (seg : String) (rest : List String) (v : String),
      findField f seg = none →
      checkSetFields f seg rest v = .error .pathNotFound
  | .nil, _, _, _, _ => rfl
  | .cons name child rfs, seg, rest, v, h => by
    by_cases hn : name = seg
    · simp [findField, hn] at h
    · simp only [checkSetFields, if_neg hn]
      exact findField_none_checkSetFields rfs seg rest v
        (by simpa [findField, hn] using h)

theorem findField_none_setMFields :
    ∀ (f : ConfigFields α) (seg : String) (rest : List String) (v : String),
      findField f seg = none →
      setMFields f seg rest v = (.error .pathNotFound, f)
  | .nil, _, _, _, _ => rfl
  | .cons name child rfs, seg, rest, v, h => by
    by_cases hn : name = seg
    · simp [findField, hn] at h
    · have ih := findField_none_setMFields rfs seg rest v
        (by simpa [findField, hn] using h)
      simp [setMFields, if_neg hn, ih]

theorem findField_some_checkSetFields :
    ∀ (f : ConfigFields α) (seg : String) (rest : List String) (v : String)
      (c : ConfigTree α), findField f seg = some c →
      checkSetFields f seg rest v = checkSet c rest v
  | .nil, _, _, _, _, h => by simp [findField] at h
  | .cons name child rfs, seg, rest, v, c, h => by
    by_cases hn : name = seg
    · have : child = c := by simpa [findField, hn] using h
      simp [checkSetFields, if_pos hn, this]
    · have ih := findField_some_checkSetFields rfs seg rest v c
        (by simpa [findField, hn] using h)
      simp [checkSetFields, if_neg hn, ih]

theorem findField_some_setMFields :
    ∀ (f : ConfigFields α) (seg : String) (rest : List String) (v : String)
      (c : ConfigTree α), findField f seg = some c →
      setMFields f seg rest v =
        ((setM c rest v).1, replaceFirst f seg (setM c rest v).2)
  | .nil, _, _, _, _, h => by simp [findField] at h
  | .cons name child rfs, seg, rest, v, c, h => by
    by_cases hn : name = seg
    · have : child = c := by simpa [findField, hn] using h
      simp [setMFields, replaceFirst, if_pos hn, this]
    · have ih := findField_some_setMFields rfs seg rest v c
        (by simpa [findField, hn] using h)
      simp [setMFields, replaceFirst, if_neg hn, ih]

theorem fieldNames_mapChildren (g : ConfigTree α → ConfigTree α) :
    ∀ (f : ConfigFields α), fieldNames (mapChildren g f) = fieldNames f
  | .nil => rfl
  | .cons name child rfs => by
    simp [mapChildren, fieldNames, fieldNames_mapChildren g rfs]

/-- C5: every leaf impl (basic_impl, String, and the (X, Y) tuple leaf)
reached with a non-empty remaining path fails with Path too long, for
both check_set and set and for every payload string. -/
theorem leaf_nonempty_path_too_long (p : String → Option α) (v : α)
    (ps : String → Option String) (sv : String)
    (seg : String) (rest : List String) (value : String) :
    (checkSet (.basicLeaf p v) (seg :: rest) value = .error .pathTooLong
      ∧ (setM (.basicLeaf p v) (seg :: rest) value).1 = .error .pathTooLong)
  ∧ (checkSet (ConfigTree.strLeaf ps sv : ConfigTree α) (seg :: rest) value
        = .error .pathTooLong
      ∧ (setM (ConfigTree.strLeaf ps sv : ConfigTree α) (seg :: rest) value).1
        = .error .pathTooLong)
  ∧ (checkSet (.tupleLeaf p v) (seg :: rest) value = .error .pathTooLong
      ∧ (setM (.tupleLeaf p v) (seg :: rest) value).1 = .error .pathTooLong) := by
  refine ⟨⟨rfl, rfl⟩, ⟨rfl, rfl⟩, rfl, rfl⟩

/-- C4: a leaf set call that returns an error (a non-empty remaining
path, or a codec failure on the payload) leaves the leaf's stored value
exactly as it was: the source returns before the assignment on both
error paths. Stated for all three leaf impls. -/
theorem leaf_set_error_preserves_value (p : String → Option α) (v : α)
    (ps : String → Option String) (sv : String)
    (path : List String) (value : String) (e : Err) :
    ((setM (.basicLeaf p v) path value).1 = .error e →
      (setM (.basicLeaf p v) path value).2 = .basicLeaf p v)
  ∧ ((setM (ConfigTree.strLeaf ps sv : ConfigTree α) path value).1 = .error e →
      (setM (ConfigTree.strLeaf ps sv : ConfigTree α) path value).2 = .strLeaf ps sv)
  ∧ ((setM (.tupleLeaf p v) path value).1 = .error e →
      (setM (.tupleLeaf p v) path value).2 = .tupleLeaf p v) := by
  rcases path with _ | ⟨s, rest⟩
  · refine ⟨?_, ?_, ?_⟩ <;> intro h
    · rcases hp : p value with _ | w <;> simp [setM, hp] at h ⊢
    · rcases hp : ps value with _ | w <;> simp [setM, hp] at h ⊢
    · rcases hp : p value with _ | w <;> simp [setM, hp] at h ⊢
  · exact ⟨fun _ => rfl, fun _ => rfl, fun _ => rfl⟩

/-- C4 witness: a basic leaf whose codec rejects the payload reports the
codec error and keeps its previous value 0. -/
theorem leaf_set_error_preserves_value_witness :
    (setM (.basicLeaf natParse 0) [] "xyz").2 = .basicLeaf natParse 0 :=
  (leaf_set_error_preserves_value natParse 0 ronStringParse "s" [] "xyz"
    .valueParseError).1 rfl

/-- C1 counterexample: a String-typed leaf under the RON string codec
refutes the claim as stated: check_set of the bare payload abc with an
empty remaining path succeeds (the String impl of check_set never
consults the codec), yet set with the same arguments fails, because set
does hand the payload to the codec and the codec rejects a literal
without surrounding double quotes. -/
theorem strLeaf_validate_ok_but_apply_fails :
    checkSet (ConfigTree.strLeaf ronStringParse "old" : ConfigTree Unit) [] "abc"
      = .ok ()
  ∧ (setM (ConfigTree.strLeaf ronStringParse "old" : ConfigTree Unit) [] "abc").1
      = .error .valueParseError :=
  ⟨rfl, rfl⟩

/-- C1 (amended): for basic_impl and tuple leaves, whose check_set
parses the payload, a successful check_set with an empty remaining path
guarantees that set with the same arguments succeeds and stores exactly
the codec's parse result. For a String leaf, check_set always succeeds
without consulting the codec, so the implication to set holds only when
the codec accepts the payload; when it does, set stores the parse
result. -/
theorem leaf_validate_implies_apply (p : String → Option α) (v : α)
    (ps : String → Option String) (sv : String) (value : String) :
    (checkSet (.basicLeaf p v) [] value = .ok () →
        (setM (.basicLeaf p v) [] value).1 = .ok ()
      ∧ ∀ w, p value = some w →
          (setM (.basicLeaf p v) [] value).2 = .basicLeaf p w)
  ∧ (checkSet (.tupleLeaf p v) [] value = .ok () →
        (setM (.tupleLeaf p v) [] value).1 = .ok ()
      ∧ ∀ w, p value = some w →
          (setM (.tupleLeaf p v) [] value).2 = .tupleLeaf p w)
  ∧ (checkSet (ConfigTree.strLeaf ps sv : ConfigTree α) [] value = .ok ()
      ∧ ∀ w, ps value = some w →
          (setM (ConfigTree.strLeaf ps sv : ConfigTree α) [] value).1 = .ok ()
        ∧ (setM (ConfigTree.strLeaf ps sv : ConfigTree α) [] value).2
            = .strLeaf ps w) := by
  refine ⟨?_, ?_, rfl, ?_⟩
  · intro h
    rcases hp : p value with _ | w
    · simp [checkSet, hp] at h
    · exact ⟨by simp [setM, hp], fun w' hw' => by
        simp [setM, hp]
        simpa [hp] using hw'⟩
  · intro h
    rcases hp : p value with _ | w
    · simp [checkSet, hp] at h
    · exact ⟨by simp [setM, hp], fun w' hw' => by
        simp [setM, hp]
        simpa [hp] using hw'⟩
  · intro w hw
    exact ⟨by simp [setM, hw], by simp [setM, hw]⟩

/-- C1 witness: a basic leaf under the decimal codec at payload 12 —
check_set succeeds, set succeeds and the stored value is the parse
result 12; and a String leaf under the RON string codec at a quoted
payload stores the inner text. -/
theorem leaf_validate_implies_apply_witness :
    ((setM (.basicLeaf natParse 0) [] "12").1 = .ok ()
      ∧ (setM (.basicLeaf natParse 0) [] "12").2 = .basicLeaf natParse 12)
  ∧ (setM (ConfigTree.strLeaf ronStringParse "old" : ConfigTree Nat) [] "\"hi\"").1
      = .ok () := by
  refine ⟨?_, ?_⟩
  · have h := (leaf_validate_implies_apply natParse 0 ronStringParse "old"
      "12").1 rfl
    exact ⟨h.1, h.2 12 rfl⟩
  · exact ((((leaf_validate_implies_apply natParse 0 ronStringParse "old"
      "\"hi\"").2.2).2) "hi" rfl).1

/-- C3 counterexample: under the RON string codec the String leaf's set
is not a direct assignment that succeeds on every payload: the bare
payload xyz is rejected (set fails with the codec error), and the quoted
payload stores the inner text hi, not the payload itself. -/
theorem strLeaf_set_not_direct_assignment :
    (setM (ConfigTree.strLeaf ronStringParse "old" : ConfigTree Unit) [] "xyz").1
      = .error .valueParseError
  ∧ (setM (ConfigTree.strLeaf ronStringParse "old" : ConfigTree Unit) [] "\"hi\"").2
      = ConfigTree.strLeaf ronStringParse "hi"
  ∧ "hi" ≠ "\"hi\"" :=
  ⟨rfl, rfl, by decide⟩

/-- C3 (amended): for a String-typed leaf addressed with an empty
remaining path, check_set (validate) succeeds for every payload without
consulting the codec; set (apply) hands the payload to the codec, stores
the codec's parse result when it accepts, and fails with the codec
error, leaving the value untouched, when it rejects. Direct assignment
of the payload happens exactly when the codec maps the payload to
itself. -/
theorem string_leaf_semantics (ps : String → Option String) (sv : String)
    (value : String) :
    checkSet (ConfigTree.strLeaf ps sv : ConfigTree Unit) [] value = .ok ()
  ∧ (∀ w, ps value = some w →
      setM (ConfigTree.strLeaf ps sv : ConfigTree Unit) [] value
        = (.ok (), .strLeaf ps w))
  ∧ (ps value = none →
      setM (ConfigTree.strLeaf ps sv : ConfigTree Unit) [] value
        = (.error .valueParseError, .strLeaf ps sv)) := by
  refine ⟨rfl, ?_, ?_⟩
  · intro w hw
    simp [setM, hw]
  · intro hw
    simp [setM, hw]

/-- C3 witness: under the RON string codec, check_set accepts the bare
payload xyz, set on the quoted payload stores hi, and set on the bare
payload fails leaving old in place. -/
theorem string_leaf_semantics_witness :
    checkSet (ConfigTree.strLeaf ronStringParse "old" : ConfigTree Unit) [] "xyz"
      = .ok ()
  ∧ setM (ConfigTree.strLeaf ronStringParse "old" : ConfigTree Unit) [] "\"hi\""
      = (.ok (), .strLeaf ronStringParse "hi")
  ∧ setM (ConfigTree.strLeaf ronStringParse "old" : ConfigTree Unit) [] "xyz"
      = (.error .valueParseError, .strLeaf ronStringParse "old") :=
  ⟨(string_leaf_semantics ronStringParse "old" "xyz").1,
   (string_leaf_semantics ronStringParse "old" "\"hi\"").2.1 "hi" rfl,
   (string_leaf_semantics ronStringParse "old" "xyz").2.2 rfl⟩

/-- C2: a composite node behaves identically for check_set and set: an
empty path fails with Path too short (set leaving the node untouched); a
first segment matching no declared field name fails with Path not found
(set leaving the node untouched); otherwise both recurse into the first
— with unique field names, the unique — matching child with the tail of
the path and the same payload, returning the child's result unchanged,
set additionally replacing exactly that child by the child's updated
state. -/
theorem composite_dispatch (fields : ConfigFields α) (value : String) :
    (checkSet (.node fields) [] value = .error .pathTooShort
      ∧ setM (.node fields) [] value = (.error .pathTooShort, .node fields))
  ∧ ∀ seg rest,
      (findField fields seg = none →
          checkSet (.node fields) (seg :: rest) value = .error .pathNotFound
        ∧ setM (.node fields) (seg :: rest) value
            = (.error .pathNotFound, .node fields))
      ∧ ∀ c, findField fields seg = some c →
          checkSet (.node fields) (seg :: rest) value = checkSet c rest value
        ∧ (setM (.node fields) (seg :: rest) value).1 = (setM c rest value).1
        ∧ (setM (.node fields) (seg :: rest) value).2
            = .node (replaceFirst fields seg (setM c rest value).2) := by
  refine ⟨⟨rfl, rfl⟩, fun seg rest => ⟨fun h => ?_, fun c h => ?_⟩⟩
  · have h1 := findField_none_checkSetFields fields seg rest value h
    have h2 := findField_none_setMFields fields seg rest value h
    exact ⟨by simp [checkSet, h1], by simp [setM, h2]⟩
  · have h1 := findField_some_checkSetFields fields seg rest value c h
    have h2 := findField_some_setMFields fields seg rest value c h
    exact ⟨by simp [checkSet, h1], by simp [setM, h2], by simp [setM, h2]⟩

/-- C2 witness: on the one-field composite with field a, an empty path
is Path too short, segment b is Path not found, and segment a dispatches
both operations into the leaf child with the empty tail. -/
theorem composite_dispatch_witness :
    checkSet (.node fields0) [] "1" = .error .pathTooShort
  ∧ checkSet (.node fields0) ["b"] "1" = .error .pathNotFound
  ∧ checkSet (.node fields0) ["a"] "1"
      = checkSet (.basicLeaf natParse 0) [] "1"
  ∧ (setM (.node fields0) ["a"] "1").2
      = .node (replaceFirst fields0 "a" (setM (.basicLeaf natParse 0) [] "1").2) :=
  ⟨(composite_dispatch fields0 "1").1.1,
   (((composite_dispatch fields0 "1").2 "b" []).1 rfl).1,
   ((((composite_dispatch fields0 "1").2 "a" []).2) (.basicLeaf natParse 0) rfl).1,
   ((((composite_dispatch fields0 "1").2 "a" []).2) (.basicLeaf natParse 0) rfl).2.2⟩

/-- C9: get_descendants on a composite returns exactly the immediate
declared field names in declaration order; on every leaf impl it is the
trait default, the empty list; and it never looks below the immediate
children — rewriting every child arbitrarily leaves it unchanged. -/
theorem get_descendants_immediate_children (fields : ConfigFields α)
    (p : String → Option α) (v : α) (ps : String → Option String) (sv : String)
    (g : ConfigTree α → ConfigTree α) :
    getDescendants (.node fields) = fieldNames fields
  ∧ getDescendants (.basicLeaf p v) = []
  ∧ getDescendants (ConfigTree.strLeaf ps sv : ConfigTree α) = []
  ∧ getDescendants (.tupleLeaf p v) = []
  ∧ getDescendants (.node (mapChildren g fields)) = getDescendants (.node fields) := by
  refine ⟨rfl, rfl, rfl, rfl, ?_⟩
  simp [getDescendants, fieldNames_mapChildren]

/-- C6: set unconditionally replaces the stored value (for every new
value, equal to the previous one or not), leaves the registry untouched,
and drives the context through every currently-registered subscriber in
registration order with the new value; compare_and_set forwards to set
exactly when the new value differs from the stored one and otherwise
leaves both the cell and the context untouched. -/
theorem observe_set_and_compare_and_set {T C : Type} [DecidableEq T]
    (o : Observe T C) (v : T) (c : C) :
    ((o.set v c).1.value = v
      ∧ (o.set v c).1.subscribers = o.subscribers
      ∧ (o.set v c).2 = o.subscribers.foldl (fun x sub => sub.run x v) c)
  ∧ (o.value ≠ v → o.compare_and_set v c = o.set v c)
  ∧ (o.value = v → o.compare_and_set v c = (o, c)) := by
  refine ⟨⟨rfl, rfl, rfl⟩, fun h => ?_, fun h => ?_⟩
  · simp [Observe.compare_and_set, h]
  · simp [Observe.compare_and_set, h]

/-- C6 witness: on a cell at value 0 with one adding subscriber,
compare_and_set at the fresh value 5 is exactly set, which folds the
subscriber over the context, while compare_and_set at the current value
0 leaves cell and context untouched. -/
theorem observe_set_and_compare_and_set_witness :
    ((Observe.mk 0 [sAdd] : Observe Nat Nat).set 5 10).2
      = [sAdd].foldl (fun x sub => sub.run x 5) 10
  ∧ (Observe.mk 0 [sAdd] : Observe Nat Nat).compare_and_set 5 10
      = (Observe.mk 0 [sAdd]).set 5 10
  ∧ (Observe.mk 0 [sAdd] : Observe Nat Nat).compare_and_set 0 10
      = (Observe.mk 0 [sAdd], 10) :=
  ⟨(observe_set_and_compare_and_set ⟨0, [sAdd]⟩ 5 10).1.2.2,
   (observe_set_and_compare_and_set ⟨0, [sAdd]⟩ 5 10).2.1 (by decide),
   (observe_set_and_compare_and_set ⟨0, [sAdd]⟩ 0 10).2.2 rfl⟩

theorem findSubAux_eq_none {C T : Type} (fid : Nat) :
    ∀ (l : List (Subscriber C T)) (i : Nat),
      findSubAux fid i l = none ↔ ∀ s ∈ l, fid ≠ s.id
  | [], i => by simp [findSubAux]
  | sub :: rest, i => by
    by_cases hs : fid = sub.id
    · simp [findSubAux, hs]
    · simp [findSubAux, hs, findSubAux_eq_none fid rest (i + 1)]

theorem subscribe_of_found {T C : Type} (o : Observe T C) (f : Subscriber C T)
    (h : ¬ (o.find_subscriber f).isNone) : o.subscribe f = o := by
  simp [Observe.subscribe, h]

theorem subscribe_of_not_found {T C : Type} (o : Observe T C) (f : Subscriber C T)
    (h : (o.find_subscriber f).isNone) :
    o.subscribe f = ⟨o.value, o.subscribers ++ [f]⟩ := by
  simp [Observe.subscribe, h]

theorem find_subscriber_after_append {T C : Type} (o : Observe T C)
    (f : Subscriber C T) :
    ¬ ((⟨o.value, o.subscribers ++ [f]⟩ : Observe T C).find_subscriber f).isNone := by
  intro h
  rw [Option.isNone_iff_eq_none] at h
  have := (findSubAux_eq_none f.id (o.subscribers ++ [f]) 0).mp h f (by simp)
  exact this rfl

/-- C7: subscribe appends its argument only when no registered entry has
the same function-pointer identity, so a registry of pairwise distinct
identities stays pairwise distinct and subscribing twice is the same as
subscribing once; in particular subscribing the same named function
twice to a fresh cell leaves exactly one entry, count_subscribers
reports 1, and one set call invokes the function exactly once on the
context. -/
theorem subscribe_dedup {T C : Type} (o : Observe T C) (f : Subscriber C T)
    (h : o.subscribers.Pairwise fun a b => a.id ≠ b.id) :
    ((o.subscribe f).subscribers.Pairwise fun a b => a.id ≠ b.id)
  ∧ (o.subscribe f).subscribe f = o.subscribe f
  ∧ ∀ (v w : T) (c : C),
      ((Observe.new v : Observe T C).subscribe f).subscribe f = ⟨v, [f]⟩
    ∧ (((Observe.new v : Observe T C).subscribe f).subscribe f).count_subscribers = 1
    ∧ ((((Observe.new v : Observe T C).subscribe f).subscribe f).set w c).2
        = f.run c w := by
  have hbase : ∀ (v : T),
      ((Observe.new v : Observe T C).subscribe f).subscribe f = ⟨v, [f]⟩ := by
    intro v
    have h1 : (Observe.new v : Observe T C).subscribe f = ⟨v, [f]⟩ := by
      simp [Observe.subscribe, Observe.find_subscriber, Observe.new, findSubAux]
    rw [h1]
    exact subscribe_of_found _ f (by
      simp [Observe.find_subscriber, findSubAux, Option.isNone])
  refine ⟨?_, ?_, fun v w c => ⟨hbase v, ?_, ?_⟩⟩
  · by_cases hf : (o.find_subscriber f).isNone
    · rw [subscribe_of_not_found o f hf]
      rw [Option.isNone_iff_eq_none] at hf
      have hn := (findSubAux_eq_none f.id o.subscribers 0).mp hf
      refine List.pairwise_append.mpr ⟨h, List.pairwise_singleton _ _, ?_⟩
      intro a ha b hb
      have : b = f := by simpa using hb
      subst this
      exact fun hab => hn a ha hab.symm
    · rw [subscribe_of_found o f hf]
      exact h
  · by_cases hf : (o.find_subscriber f).isNone
    · rw [subscribe_of_not_found o f hf]
      exact subscribe_of_found _ f (find_subscriber_after_append o f)
    · rw [subscribe_of_found o f hf]
      exact subscribe_of_found o f hf
  · rw [hbase v]
    rfl
  · rw [hbase v]
    rfl

/-- C7 witness: a cell with one subscriber handle (identity 2) accepts
the distinct handle sAdd (identity 1) keeping the identities pairwise
distinct, subscribing sAdd twice equals subscribing it once, and on the
twice-subscribed fresh cell count_subscribers is 1 and one set call runs
sAdd exactly once, adding the new value 5 to the context 10. -/
theorem subscribe_dedup_witness :
    ((Observe.mk 0 [sKeep] : Observe Nat Nat).subscribe sAdd).subscribers.Pairwise
      (fun a b => a.id ≠ b.id)
  ∧ (((Observe.mk 0 [sKeep] : Observe Nat Nat).subscribe sAdd).subscribe sAdd)
      = (Observe.mk 0 [sKeep]).subscribe sAdd
  ∧ (((Observe.new 0 : Observe Nat Nat).subscribe sAdd).subscribe sAdd).count_subscribers = 1
  ∧ ((((Observe.new 0 : Observe Nat Nat).subscribe sAdd).subscribe sAdd).set 5 10).2 = 15 :=
  ⟨(subscribe_dedup ⟨0, [sKeep]⟩ sAdd (List.pairwise_singleton _ _)).1,
   (subscribe_dedup ⟨0, [sKeep]⟩ sAdd (List.pairwise_singleton _ _)).2.1,
   ((subscribe_dedup (Observe.new 0 : Observe Nat Nat) sAdd List.Pairwise.nil).2.2 0 5 10).2.1,
   ((subscribe_dedup (Observe.new 0 : Observe Nat Nat) sAdd List.Pairwise.nil).2.2 0 5 10).2.2⟩

theorem findSubAux_shift {C T : Type} (fid : Nat) :
    ∀ (l : List (Subscriber C T)) (i : Nat),
      findSubAux fid (i + 1) l = (findSubAux fid i l).map (fun j => j + 1)
  | [], _ => rfl
  | sub :: rest, i => by
    by_cases hs : fid = sub.id
    · simp [findSubAux, hs]
    · simp [findSubAux, hs, findSubAux_shift fid rest (i + 1)]

theorem unsubscribe_eraseP_aux {C T : Type} (fid : Nat) :
    ∀ (l : List (Subscriber C T)),
      (match findSubAux fid 0 l with
       | some i => l.eraseIdx i
       | none => l)
      = l.eraseP (fun s => fid == s.id)
  | [] => rfl
  | sub :: rest => by
    have ih := unsubscribe_eraseP_aux fid rest
    by_cases hs : fid = sub.id
    · simp [findSubAux, hs, List.eraseP_cons, List.eraseIdx]
    · have hbeq : (fid == sub.id) = false := by simp [hs]
      rcases hfind : findSubAux fid 0 rest with _ | j
      · rw [hfind] at ih
        simp only at ih
        have h0 : findSubAux fid 0 (sub :: rest) = none := by
          simp [findSubAux, hs, findSubAux_shift fid rest 0, hfind]
        rw [h0]
        simp only [List.eraseP_cons, hbeq, cond_false]
        rw [← ih]
      · rw [hfind] at ih
        simp only at ih
        have h0 : findSubAux fid 0 (sub :: rest) = some (j + 1) := by
          simp [findSubAux, hs, findSubAux_shift fid rest 0, hfind]
        rw [h0]
        simp only [List.eraseP_cons, hbeq, cond_false, List.eraseIdx]
        rw [ih]

/-- C10: unsubscribe removes exactly the earliest-registered entry whose
function-pointer identity matches the argument — the registry becomes
the source list with the first identity match erased and the relative
order of everything else intact — the stored value is untouched, and
when no entry matches the cell is left entirely unchanged. -/
theorem unsubscribe_removes_first_match {T C : Type} (o : Observe T C)
    (f : Subscriber C T) :
    (o.unsubscribe f).subscribers = o.subscribers.eraseP (fun s => f.id == s.id)
  ∧ (o.unsubscribe f).value = o.value
  ∧ ((∀ s ∈ o.subscribers, f.id ≠ s.id) → o.unsubscribe f = o) := by
  have haux := unsubscribe_eraseP_aux f.id o.subscribers
  refine ⟨?_, ?_, ?_⟩
  · unfold Observe.unsubscribe Observe.find_subscriber
    rcases hfind : findSubAux f.id 0 o.subscribers with _ | i <;>
      simpa [hfind] using haux
  · unfold Observe.unsubscribe Observe.find_subscriber
    rcases hfind : findSubAux f.id 0 o.subscribers with _ | i <;> rfl
  · intro hnone
    have : findSubAux f.id 0 o.subscribers = none :=
      (findSubAux_eq_none f.id o.subscribers 0).mpr hnone
    simp [Observe.unsubscribe, Observe.find_subscriber, this]

/-- C10 witness: on a registry holding sAdd (identity 1) then sKeep
(identity 2), unsubscribing a second handle of identity 1 removes the
earliest entry sAdd and keeps sKeep; unsubscribing a handle of the
unused identity 3 changes nothing. -/
theorem unsubscribe_removes_first_match_witness :
    ((Observe.mk 0 [sAdd, sKeep] : Observe Nat Nat).unsubscribe ⟨1, fun c _ => c⟩).subscribers
      = [sAdd, sKeep].eraseP (fun s => 1 == s.id)
  ∧ (Observe.mk 0 [sAdd, sKeep] : Observe Nat Nat).unsubscribe ⟨3, fun c _ => c⟩
      = Observe.mk 0 [sAdd, sKeep] :=
  ⟨(unsubscribe_removes_first_match ⟨0, [sAdd, sKeep]⟩ ⟨1, fun c _ => c⟩).1,
   (unsubscribe_removes_first_match ⟨0, [sAdd, sKeep]⟩ ⟨3, fun c _ => c⟩).2.2
     (by decide)⟩

theorem foldl_run_preserves_get {T C : Type} (g : C → Observe T C) (v : T) :
    ∀ (l : List (Subscriber C T)),
      (∀ s ∈ l, ∀ c, g (s.run c v) = g c) →
      ∀ c, g (l.foldl (fun x sub => sub.run x v) c) = g c
  | [], _, c => rfl
  | sub :: rest, h, c => by
    simp only [List.foldl_cons]
    rw [foldl_run_preserves_get g v rest
        (fun s hs => h s (List.mem_cons_of_mem _ hs)),
      h sub (List.mem_cons_self _ _)]

theorem dependency_set_get {T C : Type} (g : C → Observe T C)
    (p : C → Observe T C → C) (v : T) (ctx : C)
    (hlens : ∀ c w, g (p c ⟨w, (g c).subscribers⟩) = ⟨w, (g c).subscribers⟩)
    (hpres : ∀ s ∈ (g ctx).subscribers, ∀ c, g (s.run c v) = g c) :
    g (Observe.dependency_set ctx g p v) = ⟨v, (g ctx).subscribers⟩ := by
  have h1 : g (p ctx ⟨v, (g ctx).subscribers⟩) = ⟨v, (g ctx).subscribers⟩ :=
    hlens ctx v
  have h2 : (g (p ctx ⟨v, (g ctx).subscribers⟩)).subscribers
      = (g ctx).subscribers := by rw [h1]
  show g (List.foldl (fun c sub => sub.run c v)
      (p ctx ⟨v, (g ctx).subscribers⟩)
      (g (p ctx ⟨v, (g ctx).subscribers⟩)).subscribers)
    = ⟨v, (g ctx).subscribers⟩
  rw [h2, foldl_run_preserves_get g v (g ctx).subscribers hpres, h1]

theorem iterDcas_stable {T C : Type} [DecidableEq T] (g : C → Observe T C)
    (p : C → Observe T C → C) (v : T) (c : C) (hv : (g c).value = v) :
    ∀ n, iterDcas g p v n c = c
  | 0 => rfl
  | n + 1 => by
    have hstep : Observe.dependency_compare_and_set c g p v = c := by
      simp [Observe.dependency_compare_and_set, hv]
    simp [iterDcas, hstep, iterDcas_stable g p v c hv n]

/-- C8 (amended): dependency_set replaces the value of the cell located
by the place accessor, snapshots the cell's subscriber list before
iterating, and folds each snapshotted subscriber over the same context
(not the cell) with the new value, unconditionally on every call;
dependency_compare_and_set performs this mutate-and-notify behaviour
exactly when the value differs from the cell's current value. Provided
the snapshotted subscribers leave the cell as projected from the
context untouched, N calls of dependency_compare_and_set with an
identical value collapse to the first call, so they notify at most
once; without that proviso a subscriber that alters the cell through
the context can make every call notify (see the counterexample). -/
theorem dependency_set_semantics {T C : Type} [DecidableEq T]
    (ctx : C) (g : C → Observe T C) (p : C → Observe T C → C) (v : T)
    (hlens : ∀ c w, g (p c ⟨w, (g c).subscribers⟩) = ⟨w, (g c).subscribers⟩) :
    Observe.dependency_set ctx g p v
      = (g ctx).subscribers.foldl (fun x sub => sub.run x v)
          (p ctx ⟨v, (g ctx).subscribers⟩)
  ∧ ((g ctx).value = v → Observe.dependency_compare_and_set ctx g p v = ctx)
  ∧ ((g ctx).value ≠ v →
      Observe.dependency_compare_and_set ctx g p v
        = Observe.dependency_set ctx g p v)
  ∧ ((∀ s ∈ (g ctx).subscribers, ∀ c, g (s.run c v) = g c) →
      ∀ n, iterDcas g p v (n + 1) ctx = iterDcas g p v 1 ctx) := by
  refine ⟨?_, fun hv => ?_, fun hv => ?_, fun hpres n => ?_⟩
  · have h2 : (g (p ctx ⟨v, (g ctx).subscribers⟩)).subscribers
        = (g ctx).subscribers := by rw [hlens ctx v]
    show List.foldl (fun c sub => sub.run c v)
        (p ctx ⟨v, (g ctx).subscribers⟩)
        (g (p ctx ⟨v, (g ctx).subscribers⟩)).subscribers
      = List.foldl (fun x sub => sub.run x v)
        (p ctx ⟨v, (g ctx).subscribers⟩) (g ctx).subscribers
    rw [h2]
  · simp [Observe.dependency_compare_and_set, hv]
  · simp [Observe.dependency_compare_and_set, hv]
  · have hone : iterDcas g p v 1 ctx
        = Observe.dependency_compare_and_set ctx g p v := rfl
    rw [hone]
    show iterDcas g p v n (Observe.dependency_compare_and_set ctx g p v)
      = Observe.dependency_compare_and_set ctx g p v
    by_cases hv : (g ctx).value = v
    · have hstep : Observe.dependency_compare_and_set ctx g p v = ctx := by
        simp [Observe.dependency_compare_and_set, hv]
      rw [hstep]
      exact iterDcas_stable g p v ctx hv n
    · have hstep : Observe.dependency_compare_and_set ctx g p v
          = Observe.dependency_set ctx g p v := by
        simp [Observe.dependency_compare_and_set, hv]
      rw [hstep]
      exact iterDcas_stable g p v _
        (by rw [dependency_set_get g p v ctx hlens hpres]) n

/-- C8 witness: on the well-behaved context, whose one subscriber only
bumps the invocation counter, dependency_set matches the
snapshot-then-fold description, dependency_compare_and_set is a no-op
when the cell already holds 5 and forwards to dependency_set when it
does not, and three gated calls with the identical value 5 equal one
call. -/
theorem dependency_set_semantics_witness :
    Observe.dependency_set (0, 0) wGet wPut 5
      = (wGet (0, 0)).subscribers.foldl (fun x sub => sub.run x 5)
          (wPut (0, 0) ⟨5, (wGet (0, 0)).subscribers⟩)
  ∧ Observe.dependency_compare_and_set (5, 3) wGet wPut 5 = (5, 3)
  ∧ Observe.dependency_compare_and_set (0, 0) wGet wPut 5
      = Observe.dependency_set (0, 0) wGet wPut 5
  ∧ iterDcas wGet wPut 5 3 (0, 0) = iterDcas wGet wPut 5 1 (0, 0) := by
  have hlens : ∀ (c : Nat × Nat) (w : Nat),
      wGet (wPut c ⟨w, (wGet c).subscribers⟩) = ⟨w, (wGet c).subscribers⟩ :=
    fun c w => rfl
  have hpres : ∀ s ∈ (wGet (0, 0)).subscribers, ∀ c,
      wGet (s.run c 5) = wGet c := by
    intro s hs c
    have hsw : s = wSub := by simpa [wGet] using hs
    subst hsw
    rfl
  refine ⟨(dependency_set_semantics (0, 0) wGet wPut 5 hlens).1,
    (dependency_set_semantics (5, 3) wGet wPut 5 hlens).2.1 rfl,
    (dependency_set_semantics (0, 0) wGet wPut 5 hlens).2.2.1 (by decide),
    (dependency_set_semantics (0, 0) wGet wPut 5 hlens).2.2.2 hpres 2⟩

/-- C8 counterexample: on the concrete dependency context whose one
registered subscriber resets the observed scalar to 0 through the
context while recording its invocation in the counter, two successive
dependency_compare_and_set calls with the identical value 5 both
mutate and notify: the invocation counter reaches 2, not at most 1, so
N gated calls with an identical value do not notify at most once. -/
theorem dependency_compare_and_set_renotifies :
    Observe.dependency_compare_and_set (0, 0) cexGet cexPut 5 = (0, 1)
  ∧ Observe.dependency_compare_and_set
      (Observe.dependency_compare_and_set (0, 0) cexGet cexPut 5)
      cexGet cexPut 5 = (0, 2) :=
  ⟨rfl, rfl⟩
